import Mathlib

/-!
Verification development for the data-transformer tool (`src/transformer.py`).

The transformation engine is shallowly embedded: a Python scalar is a
`Value` (int / float / str / None); a record (Python dict with insertion
order) is an association list with unique keys; a dataset is a list of
records.  Python's stable `list.sort` is modelled by a stable insertion
sort; Python floats are idealised as rationals (only their kind and
exact arithmetic on decimal literals matter to the properties below);
`int()` / `float()` string parsing is modelled on the ASCII decimal core
of Python's grammar (underscore separators, unicode digits and
inf/nan are not modelled).
-/

/-- A Python scalar value as it occurs in the tool: `int`, `float`
(idealised as an exact rational), `str`, or `None`. -/
inductive Value where
  | int (n : Int)
  | float (q : Rat)
  | str (s : String)
  | null
deriving DecidableEq, Repr

/-- A record: Python `dict` with insertion order, field name to value. -/
abbrev Record := List (String × Value)

/-- A dataset: ordered list of records. -/
abbrev Dataset := List Record

/-- Lookup in a record, Python `row[k]` / `k in row` (first binding). -/
def dictGet : Record → String → Option Value
  | [], _ => none
  | (k', v') :: rest, k => if k' = k then some v' else dictGet rest k

/-- Python `row[k] = v`: update the value in place if the key exists,
otherwise append the new binding at the end (dict insertion order). -/
def dictSet : Record → String → Value → Record
  | [], k, v => [(k, v)]
  | (k', v') :: rest, k, v =>
    if k' = k then (k, v) :: rest else (k', v') :: dictSet rest k v

/-- Python `row.pop(k)` (the removal part): drop the binding for `k`. -/
def dictErase : Record → String → Record
  | [], _ => []
  | (k', v') :: rest, k => if k' = k then rest else (k', v') :: dictErase rest k

-- ---------------------------------------------------------------------
-- Character-list string primitives (kernel-reducible models of the
-- Python `str` methods the tool uses).
-- ---------------------------------------------------------------------

/-- Split a character list at every occurrence of `c`
(Python `s.split(c)` with a one-character separator). -/
def splitCharList (c : Char) : List Char → List (List Char)
  | [] => [[]]
  | x :: xs =>
    if x = c then [] :: splitCharList c xs
    else
      match splitCharList c xs with
      | [] => [[x]]
      | y :: ys => (x :: y) :: ys

/-- Python `s.split(c)` for a one-character separator. -/
def pySplit (c : Char) (s : String) : List String :=
  (splitCharList c s.data).map String.mk

/-- Join strings with a one-character separator (used to rebuild the
tail that a bounded Python `split` leaves unsplit). -/
def joinWithChar (c : Char) : List String → String
  | [] => ""
  | [x] => x
  | x :: xs => x ++ String.mk [c] ++ joinWithChar c xs

/-- Python `s.split(c, n)`: at most `n` splits, remainder joined back. -/
def pySplitMax (c : Char) (n : Nat) (s : String) : List String :=
  let ps := pySplit c s
  if ps.length ≤ n + 1 then ps
  else ps.take n ++ [joinWithChar c (ps.drop n)]

/-- Python `s.split(c, 1)`. -/
def pySplit1 (c : Char) (s : String) : List String :=
  pySplitMax c 1 s

/-- Python `c in s` for a single character. -/
def pyContains (s : String) (c : Char) : Bool :=
  s.data.contains c

/-- Python `s.strip()` (ASCII whitespace core). -/
def pyStrip (s : String) : String :=
  String.mk (((s.data.dropWhile Char.isWhitespace).reverse.dropWhile
      Char.isWhitespace).reverse)

/-- Python `s.lower()` (ASCII core). -/
def pyLowerStr (s : String) : String :=
  String.mk (s.data.map Char.toLower)

/-- Python `s.isalnum()` (ASCII core): nonempty and all alphanumeric. -/
def pyIsAlnum (s : String) : Bool :=
  !s.data.isEmpty && s.data.all Char.isAlphanum

/-- Python `s.startswith(c)` for a one-character prefix. -/
def startsWithChar (s : String) (c : Char) : Bool :=
  match s.data with
  | [] => false
  | a :: _ => a = c

/-- Python `s.endswith(c)` for a one-character suffix. -/
def endsWithChar (s : String) (c : Char) : Bool :=
  match s.data.getLast? with
  | none => false
  | some a => a = c

/-- Python `needle in hay` for strings: contiguous substring test. -/
def isSubListOf (needle : List Char) : List Char → Bool
  | [] => needle.isEmpty
  | a :: rest => needle.isPrefixOf (a :: rest) || isSubListOf needle rest

/-- Strict lexicographic order on character lists: Python `str <`
(code-point order). -/
def charListLt : List Char → List Char → Bool
  | [], [] => false
  | [], _ :: _ => true
  | _ :: _, [] => false
  | a :: as, b :: bs =>
    if a < b then true else if b < a then false else charListLt as bs

-- ---------------------------------------------------------------------
-- Decimal rendering and parsing (models of Python `str()`, `int()`,
-- `float()` on their ASCII decimal core).
-- ---------------------------------------------------------------------

/-- Decimal digits of `n`, most significant first (fuel-driven so the
kernel can reduce it). -/
def natDigits (fuel n : Nat) : List Char :=
  match fuel with
  | 0 => []
  | fuel + 1 =>
    if n < 10 then [Char.ofNat (48 + n)]
    else natDigits fuel (n / 10) ++ [Char.ofNat (48 + n % 10)]

/-- Decimal rendering of a natural number. -/
def natRepr (n : Nat) : String :=
  String.mk (natDigits (n + 1) n)

/-- Decimal rendering of an integer (Python `str(int)`). -/
def intRepr : Int → String
  | Int.ofNat m => natRepr m
  | Int.negSucc m => "-" ++ natRepr (m + 1)

/-- Rendering of a float value (Python `str(float)`), idealised: an
integral rational prints as `n.0`, others as an exact fraction. -/
def floatRepr (q : Rat) : String :=
  if q.den = 1 then intRepr q.num ++ ".0"
  else intRepr q.num ++ "/" ++ natRepr q.den

/-- Python `str(value)` for the four value kinds. -/
def pyStr : Value → String
  | Value.str s => s
  | Value.int n => intRepr n
  | Value.float q => floatRepr q
  | Value.null => "None"

/-- Numeric value of a list of decimal digits. -/
def digitsToNat (l : List Char) : Nat :=
  l.foldl (fun acc c => acc * 10 + (c.toNat - 48)) 0

/-- Python `int(s)` on its ASCII decimal core: optional surrounding
whitespace, optional sign, then a nonempty run of digits. -/
def pyParseInt (s : String) : Option Int :=
  match (pyStrip s).data with
  | [] => none
  | c :: rest =>
    if c = '+' then
      if !rest.isEmpty && rest.all Char.isDigit then some (digitsToNat rest)
      else none
    else if c = '-' then
      if !rest.isEmpty && rest.all Char.isDigit then some (-(digitsToNat rest : Int))
      else none
    else if (c :: rest).all Char.isDigit then some (digitsToNat (c :: rest))
    else none

/-- Mantissa of a float literal: digits with at most one point,
at least one digit overall. -/
def parseMantissa (l : List Char) : Option Rat :=
  match splitCharList '.' l with
  | [a] =>
    if !a.isEmpty && a.all Char.isDigit then some (digitsToNat a : Rat) else none
  | [a, b] =>
    if !(a ++ b).isEmpty && a.all Char.isDigit && b.all Char.isDigit then
      some ((digitsToNat (a ++ b) : Rat) / ((10 : Rat) ^ b.length))
    else none
  | _ => none

/-- Signed decimal exponent of a float literal. -/
def parseExponent (l : List Char) : Option Int :=
  match l with
  | [] => none
  | c :: rest =>
    if c = '+' then
      if !rest.isEmpty && rest.all Char.isDigit then some (digitsToNat rest) else none
    else if c = '-' then
      if !rest.isEmpty && rest.all Char.isDigit then some (-(digitsToNat rest : Int))
      else none
    else if (c :: rest).all Char.isDigit then some (digitsToNat (c :: rest))
    else none

/-- Ten to an integer power, as a rational. -/
def qpow10 (e : Int) : Rat :=
  if 0 ≤ e then ((10 : Rat) ^ e.toNat) else 1 / ((10 : Rat) ^ (-e).toNat)

/-- Unsigned part of Python `float(s)`: mantissa with optional
`e`-exponent. -/
def parseFloatCore (l : List Char) : Option Rat :=
  match splitCharList 'e' (l.map Char.toLower) with
  | [m] => parseMantissa m
  | [m, e] =>
    match parseMantissa m, parseExponent e with
    | some qm, some ex => some (qm * qpow10 ex)
    | _, _ => none
  | _ => none

/-- Python `float(s)` on its ASCII decimal core: optional surrounding
whitespace, optional sign, decimal mantissa, optional exponent
(`inf`/`nan` and underscore separators are not modelled). -/
def pyParseFloat (s : String) : Option Rat :=
  match (pyStrip s).data with
  | [] => none
  | c :: rest =>
    if c = '+' then parseFloatCore rest
    else if c = '-' then (parseFloatCore rest).map (fun q => -q)
    else parseFloatCore (c :: rest)

/-- Model of `_try_convert_type` (transformer.py:30): an `int` or `float` (and
any non-string, hence also `None`) passes through unchanged; a string
is parsed as an integer, on failure as a float, on failure kept. -/
def _try_convert_type (value : Value) : Value :=
  match value with
  | Value.int n => Value.int n
  | Value.float q => Value.float q
  | Value.null => Value.null
  | Value.str s =>
    match pyParseInt s with
    | some n => Value.int n
    | none =>
      match pyParseFloat s with
      | some q => Value.float q
      | none => Value.str s

-- ---------------------------------------------------------------------
-- Python value comparison semantics.
-- ---------------------------------------------------------------------

/-- Numerator/denominator view of a numeric value (`int n` is `n/1`,
a float is its exact rational); `none` for non-numeric kinds. -/
def numParts : Value → Option (Int × Nat)
  | Value.int n => some (n, 1)
  | Value.float q => some (q.num, q.den)
  | _ => none

/-- Python `==` on values: numbers compare by value across `int` and
`float`, strings by content, `None` only equals `None`; any other
kind combination is unequal (never an error in Python). -/
def pyValEq (a b : Value) : Bool :=
  match numParts a, numParts b with
  | some (n1, d1), some (n2, d2) => n1 * (d2 : Int) == n2 * (d1 : Int)
  | _, _ =>
    match a, b with
    | Value.str s1, Value.str s2 => s1 == s2
    | Value.null, Value.null => true
    | _, _ => false

/-- Python `<` on values: numeric pairs by value, string pairs by
code-point order.  Python raises `TypeError` on any other kind pair;
the embedding returns `false` there and every theorem that relies on
an order keeps such pairs out via a comparability hypothesis. -/
def pyValLt (a b : Value) : Bool :=
  match numParts a, numParts b with
  | some (n1, d1), some (n2, d2) => n1 * (d2 : Int) < n2 * (d1 : Int)
  | _, _ =>
    match a, b with
    | Value.str s1, Value.str s2 => charListLt s1.data s2.data
    | _, _ => false

/-- Three-way comparison for the ordering filter operators: `some`
ordering for numeric or string pairs, `none` where Python raises
`TypeError` (the filter catches it and treats it as no match). -/
def pyCompare (a b : Value) : Option Ordering :=
  match numParts a, numParts b with
  | some (n1, d1), some (n2, d2) =>
    some (if n1 * (d2 : Int) < n2 * (d1 : Int) then Ordering.lt
          else if n1 * (d2 : Int) == n2 * (d1 : Int) then Ordering.eq
          else Ordering.gt)
  | _, _ =>
    match a, b with
    | Value.str s1, Value.str s2 =>
      some (if charListLt s1.data s2.data then Ordering.lt
            else if s1 == s2 then Ordering.eq else Ordering.gt)
    | _, _ => none

-- ---------------------------------------------------------------------
-- transform_select_columns (transformer.py:143)
-- ---------------------------------------------------------------------

/-- Model of `transform_select_columns`: project every record onto the requested
columns in the requested order, dropping absent columns and records
that end up empty.  (The Python dict comprehension would deduplicate a
repeated requested column; requested column lists are treated as
duplicate-free here.) -/
def transform_select_columns (data : Dataset) (columns_to_keep : List String) :
    Dataset :=
  if data.isEmpty then []
  else if columns_to_keep.isEmpty then data
  else
    (data.map (fun original_row =>
        columns_to_keep.filterMap (fun col =>
          (dictGet original_row col).map (fun v => (col, v))))).filter
      (fun new_row => !new_row.isEmpty)

-- ---------------------------------------------------------------------
-- transform_filter_rows (transformer.py:156)
-- ---------------------------------------------------------------------

/-- One row's filter verdict (the loop body of `transform_filter_rows`):
a row without the column never matches; ordering operators match via
`pyCompare` (a `TypeError`, i.e. `none`, is caught and means no match);
`==`/`!=` use Python equality; the string operators require both sides
to be strings; an unsupported operator never matches. -/
def rowMatches (column_name operator : String) (comp_value : Value)
    (row : Record) : Bool :=
  match dictGet row column_name with
  | none => false
  | some actual =>
    if operator = ">" then pyCompare actual comp_value == some Ordering.gt
    else if operator = "<" then pyCompare actual comp_value == some Ordering.lt
    else if operator = ">=" then
      pyCompare actual comp_value == some Ordering.gt ||
      pyCompare actual comp_value == some Ordering.eq
    else if operator = "<=" then
      pyCompare actual comp_value == some Ordering.lt ||
      pyCompare actual comp_value == some Ordering.eq
    else if operator = "==" then pyValEq actual comp_value
    else if operator = "!=" then !pyValEq actual comp_value
    else if operator = "contains" then
      match actual, comp_value with
      | Value.str a, Value.str b => isSubListOf b.data a.data
      | _, _ => false
    else if operator = "startswith" then
      match actual, comp_value with
      | Value.str a, Value.str b => b.data.isPrefixOf a.data
      | _, _ => false
    else if operator = "endswith" then
      match actual, comp_value with
      | Value.str a, Value.str b => b.data.isSuffixOf a.data
      | _, _ => false
    else false

/-- Model of `transform_filter_rows`: coerce the literal once with
`_try_convert_type`, then keep exactly the rows whose verdict is true,
in input order. -/
def transform_filter_rows (data : Dataset)
    (column_name operator value_to_compare : String) : Dataset :=
  if data.isEmpty then []
  else
    data.filter
      (rowMatches column_name operator (_try_convert_type (Value.str value_to_compare)))

-- ---------------------------------------------------------------------
-- transform_rename_columns (transformer.py:197)
-- ---------------------------------------------------------------------

/-- One `(old, new)` step of the rename loop:
`new_row[new_name] = new_row.pop(old_name)` when `old` is present —
the binding for `old` is removed first, then the value is stored under
`new` (updating `new` in place if it exists, else appending at the end). -/
def renameStep (new_row : Record) (pair : String × String) : Record :=
  match dictGet new_row pair.1 with
  | some v => dictSet (dictErase new_row pair.1) pair.2 v
  | none => new_row

/-- Model of `transform_rename_columns`: apply every pair of the map, in map
order, to every record. -/
def transform_rename_columns (data : Dataset)
    (rename_map : List (String × String)) : Dataset :=
  if data.isEmpty || rename_map.isEmpty then data
  else data.map (fun original_row => rename_map.foldl renameStep original_row)

-- ---------------------------------------------------------------------
-- transform_sort_data (transformer.py:211)
-- ---------------------------------------------------------------------

/-- The Python sort key for one column:
`(row.get(c) is None, row.get(c))` — `row.get` yields `None` both for a
missing column and for an explicitly null value. -/
def sortKeyOf (column_name : String) (row : Record) : Bool × Value :=
  let v := (dictGet row column_name).getD Value.null
  (v == Value.null, v)

/-- Python tuple `<` on a sort key pair: compare the booleans
(`False < True`), then — only when they agree — the values, where equal
values (Python `==`) make the tuples compare not-less. -/
def keyLt (k1 k2 : Bool × Value) : Bool :=
  if k1.1 != k2.1 then !k1.1 && k2.1
  else if pyValEq k1.2 k2.2 then false
  else pyValLt k1.2 k2.2

/-- Strict "sorts before" comparator of one sort pass:
ascending key order, flipped when the direction lowercases to `desc`
(Python `reverse=True` reverses comparisons but stays stable). -/
def stageLt (column_name order : String) (r1 r2 : Record) : Bool :=
  if pyLowerStr order == "desc" then
    keyLt (sortKeyOf column_name r2) (sortKeyOf column_name r1)
  else keyLt (sortKeyOf column_name r1) (sortKeyOf column_name r2)

/-- Stable insertion of `a` into a sorted list: walk past every element
that sorts strictly before `a`, so that earlier input stays ahead of
later, tied input. -/
def sInsert (lt : α → α → Bool) (a : α) : List α → List α
  | [] => [a]
  | b :: bs => if lt b a then b :: sInsert lt a bs else a :: b :: bs

/-- Stable (insertion) sort: the model of one Python `list.sort` call. -/
def sSort (lt : α → α → Bool) : List α → List α
  | [] => []
  | a :: as => sInsert lt a (sSort lt as)

/-- Model of `transform_sort_data`: one stable sort per key, applied from the
last key to the first so the first listed key ends up primary.  (The
arity guard on a key tuple in the source cannot fire here because keys
are typed as pairs.) -/
def transform_sort_data (data : Dataset) (sort_keys : List (String × String)) :
    Dataset :=
  if data.isEmpty || sort_keys.isEmpty then data
  else
    sort_keys.reverse.foldl
      (fun current_data ck => sSort (stageLt ck.1 ck.2) current_data) data

-- ---------------------------------------------------------------------
-- transform_add_modify_column (transformer.py:233)
-- ---------------------------------------------------------------------

/-- The trimmed text between the first and second `+` of the expression
(`expression.split('+')[1].strip()` — inspected only when a `+` is
present). -/
def plusRhsSeg (expression : String) : String :=
  pyStrip ((pySplit '+' expression).getD 1 "")

/-- Guard of the concatenation branch (transformer.py:250): the
expression has a `+`, and the text after the first `+` (up to a second
`+`) contains no digit and does not start with a double quote. -/
def concatCond (expression : String) : Bool :=
  pyContains expression '+' &&
  !((plusRhsSeg expression).data.any Char.isDigit) &&
  !(startsWithChar (plusRhsSeg expression) (Char.ofNat 34))

/-- Guard of the arithmetic branch (transformer.py:260): a `*`, or a
`+` whose right-hand segment contains a digit. -/
def arithCond (expression : String) : Bool :=
  pyContains expression '*' ||
  (pyContains expression '+' && (plusRhsSeg expression).data.any Char.isDigit)

/-- One side of a concatenation
(`str(new_row.get(side, side if not side.isalnum() else ""))`):
the stringified field value when the side names a field, otherwise the
side's own text unless it is purely alphanumeric (a bare missing field
name), which yields the empty string. -/
def concatSide (row : Record) (side : String) : String :=
  match dictGet row side with
  | some v => pyStr v
  | none => if !(pyIsAlnum side) then side else ""

/-- Numeric arithmetic with Python promotion: `int op int` stays `int`,
any `float` operand makes the result `float`.  Only reached with two
numeric operands. -/
def pyArith (op : Char) (a b : Value) : Value :=
  match a, b with
  | Value.int n, Value.int m => Value.int (if op = '*' then n * m else n + m)
  | _, _ =>
    let qa := match a with | Value.int n => (n : Rat) | Value.float q => q | _ => 0
    let qb := match b with | Value.int n => (n : Rat) | Value.float q => q | _ => 0
    Value.float (if op = '*' then qa * qb else qa + qb)

/-- The per-record body of `transform_add_modify_column`
(transformer.py:247-296), following the source's branch order:
concatenation heuristic, then arithmetic, then quoted literal, then
bare literal.  (The source's local `op_char` variable is inlined, and
its `if op_char:` else-arm is dead: the arithmetic guard guarantees an
operator is found.) -/
def addModifyRow (new_col_name expression : String) (original_row : Record) :
    Record :=
  if concatCond expression then
    match (pySplit1 '+' expression).map pyStrip with
    | [val1_expr, val2_expr] =>
      dictSet original_row new_col_name
        (Value.str (concatSide original_row val1_expr ++
          concatSide original_row val2_expr))
    | _ => dictSet original_row new_col_name (_try_convert_type (Value.str expression))
  else if arithCond expression then
    match (pySplit1 (if pyContains expression '*' then '*' else '+')
        expression).map pyStrip with
    | [col_operand_name, literal_operand_str] =>
      match dictGet original_row col_operand_name with
      | some v =>
        match numParts (_try_convert_type v),
              numParts (_try_convert_type (Value.str literal_operand_str)) with
        | some _, some _ =>
          dictSet original_row new_col_name
            (pyArith (if pyContains expression '*' then '*' else '+')
              (_try_convert_type v)
              (_try_convert_type (Value.str literal_operand_str)))
        | _, _ => dictSet original_row new_col_name Value.null
      | none => dictSet original_row new_col_name Value.null
    | _ => dictSet original_row new_col_name (_try_convert_type (Value.str expression))
  else if (startsWithChar expression (Char.ofNat 34) &&
      endsWithChar expression (Char.ofNat 34)) ||
      (startsWithChar expression (Char.ofNat 39) &&
      endsWithChar expression (Char.ofNat 39)) then
    dictSet original_row new_col_name
      (Value.str (String.mk (expression.data.drop 1).dropLast))
  else dictSet original_row new_col_name (_try_convert_type (Value.str expression))

/-- Model of `transform_add_modify_column`: evaluate the expression against
every record (the per-row `except` arm of the source is unreachable in
the embedding, every branch being total). -/
def transform_add_modify_column (data : Dataset)
    (new_col_name expression : String) : Dataset :=
  if data.isEmpty then []
  else data.map (addModifyRow new_col_name expression)

-- ---------------------------------------------------------------------
-- The pipeline stage dispatcher (the per---transform loop body of
-- main, transformer.py:352-397).
-- ---------------------------------------------------------------------

/-- Parse `old1:new1,old2:new2,...`; `none` models the `ValueError`
raised by unpacking a pair without a colon.  (The source stores pairs
in a dict: a repeated `old` name would collapse; maps are treated as
duplicate-free here.) -/
def parseRenameMap (params_str : String) : Option (List (String × String)) :=
  if (pySplit ',' params_str).all (fun p => pyContains p ':') then
    some ((pySplit ',' params_str).map (fun p =>
      match pySplit1 ':' p with
      | [old, new] => (pyStrip old, pyStrip new)
      | _ => (pyStrip p, "")))
  else none

/-- Parse `col1:asc,col2:desc,...`; `none` models the `ValueError`
raised by unpacking a key pair without a colon. -/
def parseSortKeys (params_str : String) : Option (List (String × String)) :=
  if (pySplit ',' params_str).all (fun p => pyContains p ':') then
    some ((pySplit ',' params_str).map (fun p =>
      match pySplit1 ':' p with
      | [col, order] => (pyStrip col, pyLowerStr (pyStrip order))
      | _ => (pyStrip p, "")))
  else none

/-- Dispatch of main's transform loop on the (already lowercased,
stripped) action name and the parameter string; any parse failure
(wrong filter arity, colon-less rename/sort pair, missing `=` in
addcol, unknown action) returns the dataset unchanged — the source logs
and continues. -/
def runAction (current_data : Dataset) (action params_str : String) : Dataset :=
  if action = "select" then
    transform_select_columns current_data ((pySplit ',' params_str).map pyStrip)
  else if action = "filter" then
    match (pySplitMax ',' 2 params_str).map pyStrip with
    | [col, op, val] => transform_filter_rows current_data col op val
    | _ => current_data
  else if action = "rename" then
    match parseRenameMap params_str with
    | some m => transform_rename_columns current_data m
    | none => current_data
  else if action = "sort" then
    match parseSortKeys params_str with
    | some ks => transform_sort_data current_data ks
    | none => current_data
  else if action = "addcol" then
    if pyContains params_str '=' then
      match pySplit1 '=' params_str with
      | [n, e] => transform_add_modify_column current_data (pyStrip n) (pyStrip e)
      | _ => current_data
    else current_data
  else current_data

/-- One iteration of main's transform loop: split the specification at
the first colon (a `ValueError` when there is none skips the stage) and
dispatch on the lowercased action. -/
def runStage (current_data : Dataset) (trans_str : String) : Dataset :=
  if pyContains trans_str ':' then
    match pySplit1 ':' trans_str with
    | [a, params_str] => runAction current_data (pyLowerStr (pyStrip a)) params_str
    | _ => current_data
  else current_data

/-- The parameter strings on which an action takes an error path. -/
def malformedAction (action params_str : String) : Bool :=
  if action = "select" then false
  else if action = "filter" then
    decide ((pySplitMax ',' 2 params_str).length ≠ 3)
  else if action = "rename" then
    !((pySplit ',' params_str).all (fun p => pyContains p ':'))
  else if action = "sort" then
    !((pySplit ',' params_str).all (fun p => pyContains p ':'))
  else if action = "addcol" then !(pyContains params_str '=')
  else true

/-- The specification strings on which main's loop takes an error path:
no colon, a filter without three comma parts, a rename or sort pair
without a colon, an addcol without `=`, or an unknown action. -/
def malformedSpec (trans_str : String) : Bool :=
  if pyContains trans_str ':' then
    match pySplit1 ':' trans_str with
    | [a, params_str] => malformedAction (pyLowerStr (pyStrip a)) params_str
    | _ => true
  else true

-- ---------------------------------------------------------------------
-- Derived notions used by the claims.
-- ---------------------------------------------------------------------

/-- Python `row.get(c)` as the sort pass sees it: the stored value, or
`None` when the column is missing. -/
def getV (r : Record) (c : String) : Value :=
  (dictGet r c).getD Value.null

/-- The record has column `c` present with a non-null value (the
complement of what the sort key's boolean flags). -/
def presentVal (c : String) (r : Record) : Bool :=
  !(getV r c == Value.null)

/-- Value in the numeric family (or null): the kinds Python can compare
with an `int`/`float`. -/
def famNum (v : Value) : Bool :=
  v == Value.null || (numParts v).isSome

/-- Value in the string family (or null). -/
def famStr (v : Value) : Bool :=
  v == Value.null ||
  (match v with
   | Value.str _ => true
   | _ => false)

/-- Column `c` of the dataset is kind-homogeneous: all its values (with
missing/null allowed anywhere) are numeric, or all are strings.  On
such columns Python's sort never raises `TypeError`, so the embedded
total comparator agrees with the source. -/
def columnGood (c : String) (d : Dataset) : Bool :=
  d.all (fun r => famNum (getV r c)) || d.all (fun r => famStr (getV r c))

/-- Two records tie on one sort column: neither sort key compares
strictly below the other (direction-independent). -/
def tieKey (c : String) (r1 r2 : Record) : Bool :=
  !(keyLt (sortKeyOf c r1) (sortKeyOf c r2)) &&
  !(keyLt (sortKeyOf c r2) (sortKeyOf c r1))

/-- Two records compare equal on every key of a sort specification. -/
def tieAll (keys : List (String × String)) (r1 r2 : Record) : Bool :=
  keys.all (fun ck => tieKey ck.1 r1 r2)

/-- Boolean sortedness with respect to a strict comparator: no element
sorts strictly before its predecessor. -/
def sortedByB (lt : α → α → Bool) : List α → Bool
  | [] => true
  | [_] => true
  | a :: b :: rest => !(lt b a) && sortedByB lt (b :: rest)

/-- Exact rational content of a numeric value (zero on other kinds;
only applied to numeric operands). -/
def toQ : Value → Rat
  | Value.int n => (n : Rat)
  | Value.float q => q
  | _ => 0

/-- Two values have kinds Python compares without `TypeError` and with
a chance of equality: both numeric, both strings, or both `None`. -/
def sameKindFamily (a b : Value) : Bool :=
  ((numParts a).isSome && (numParts b).isSome) ||
  (match a, b with
   | Value.str _, Value.str _ => true
   | Value.null, Value.null => true
   | _, _ => false)

-- ---------------------------------------------------------------------
-- Generic lemmas about the stable insertion sort.
-- ---------------------------------------------------------------------

theorem sInsert_perm (lt : α → α → Bool) (a : α) (l : List α) :
    (sInsert lt a l).Perm (a :: l) := by
  induction l with
  | nil => simp [sInsert]
  | cons b bs ih =>
    by_cases h : lt b a = true
    · simp only [sInsert, h, if_true]
      exact (ih.cons b).trans (List.Perm.swap a b bs)
    · simp [sInsert, h]

theorem sSort_perm (lt : α → α → Bool) (l : List α) :
    (sSort lt l).Perm l := by
  induction l with
  | nil => simp [sSort]
  | cons a as ih =>
    exact (sInsert_perm lt a (sSort lt as)).trans (ih.cons a)

theorem mem_sSort {lt : α → α → Bool} {l : List α} {x : α} :
    x ∈ sSort lt l ↔ x ∈ l :=
  (sSort_perm lt l).mem_iff

theorem filter_sInsert {lt : α → α → Bool} {p : α → Bool} {a : α} :
    ∀ {l : List α},
      (p a = true → ∀ b ∈ l, p b = true → lt b a = false) →
      (sInsert lt a l).filter p =
        if p a then a :: l.filter p else l.filter p := by
  intro l
  induction l with
  | nil =>
    intro _
    by_cases hpa : p a = true <;> simp [sInsert, List.filter, hpa]
  | cons b bs ih =>
    intro hp
    by_cases h : lt b a = true
    · have hrec := ih (fun hpa x hx hpx => hp hpa x (List.mem_cons_of_mem b hx) hpx)
      by_cases hpa : p a = true
      · by_cases hpb : p b = true
        · have hfalse := hp hpa b (List.mem_cons_self b bs) hpb
          rw [h] at hfalse
          simp at hfalse
        · simp only [sInsert, h, if_true, List.filter_cons, hrec]
          simp [hpa, hpb]
      · by_cases hpb : p b = true
        · simp only [sInsert, h, if_true, List.filter_cons, hrec]
          simp [hpa, hpb]
        · simp only [sInsert, h, if_true, List.filter_cons, hrec]
          simp [hpa, hpb]
    · have h' : lt b a = false := by
        cases hlt : lt b a
        · rfl
        · exact absurd hlt h
      simp only [sInsert, h', Bool.false_eq_true, if_false]
      by_cases hpa : p a = true <;> simp [List.filter_cons, hpa]

theorem filter_sSort {lt : α → α → Bool} {p : α → Bool} :
    ∀ {l : List α},
      (∀ x ∈ l, ∀ y ∈ l, p x = true → p y = true → lt x y = false) →
      (sSort lt l).filter p = l.filter p := by
  intro l
  induction l with
  | nil => intro _; simp [sSort]
  | cons a as ih =>
    intro hp
    have step : (sInsert lt a (sSort lt as)).filter p =
        if p a then a :: (sSort lt as).filter p else (sSort lt as).filter p := by
      apply filter_sInsert
      intro hpa b hb hpb
      exact hp b (List.mem_cons_of_mem a (mem_sSort.mp hb)) a
        (List.mem_cons_self a as) hpb hpa
    have hrec := ih (fun x hx y hy hpx hpy =>
      hp x (List.mem_cons_of_mem a hx) y (List.mem_cons_of_mem a hy) hpx hpy)
    simp only [sSort]
    rw [step, hrec, List.filter_cons]

theorem map_sInsert {lt : α → α → Bool} {f : α → α}
    (hf : ∀ x y, lt (f x) (f y) = lt x y) (a : α) :
    ∀ (l : List α), sInsert lt (f a) (l.map f) = (sInsert lt a l).map f := by
  intro l
  induction l with
  | nil => simp [sInsert]
  | cons b bs ih =>
    simp only [List.map_cons, sInsert, hf]
    by_cases h : lt b a = true
    · simp [h, ih]
    · have h' : lt b a = false := by
        cases hlt : lt b a
        · rfl
        · exact absurd hlt h
      simp [h']

theorem map_sSort {lt : α → α → Bool} {f : α → α}
    (hf : ∀ x y, lt (f x) (f y) = lt x y) :
    ∀ (l : List α), sSort lt (l.map f) = (sSort lt l).map f := by
  intro l
  induction l with
  | nil => simp [sSort]
  | cons a as ih =>
    simp only [List.map_cons, sSort]
    rw [ih, map_sInsert hf]

theorem chain'_sInsert {lt : α → α → Bool}
    (hasym : ∀ x y, lt x y = true → lt y x = false) (a : α) :
    ∀ {l : List α}, l.Chain' (fun x y => lt y x = false) →
      (sInsert lt a l).Chain' (fun x y => lt y x = false) := by
  intro l
  induction l with
  | nil => intro _; simp [sInsert]
  | cons b bs ih =>
    intro hch
    by_cases h : lt b a = true
    · simp only [sInsert, h, if_true]
      rw [List.chain'_cons']
      refine ⟨?_, ih hch.tail⟩
      intro y hy
      cases bs with
      | nil =>
        simp only [sInsert, List.head?] at hy
        cases hy
        exact hasym b a h
      | cons cc cs =>
        by_cases h2 : lt cc a = true
        · simp only [sInsert, h2, if_true, List.head?] at hy
          cases hy
          exact (List.chain'_cons.mp hch).1
        · have h2' : lt cc a = false := by
            cases hlt : lt cc a
            · rfl
            · exact absurd hlt h2
          simp only [sInsert, h2', Bool.false_eq_true, if_false, List.head?] at hy
          cases hy
          exact hasym b a h
    · have h' : lt b a = false := by
        cases hlt : lt b a
        · rfl
        · exact absurd hlt h
      simp only [sInsert, h', Bool.false_eq_true, if_false]
      rw [List.chain'_cons]
      exact ⟨h', hch⟩

theorem chain'_sSort {lt : α → α → Bool}
    (hasym : ∀ x y, lt x y = true → lt y x = false) :
    ∀ (l : List α), (sSort lt l).Chain' (fun x y => lt y x = false) := by
  intro l
  induction l with
  | nil => simp [sSort]
  | cons a as ih => exact chain'_sInsert hasym a ih

theorem sortedByB_eq_true_of_chain' {lt : α → α → Bool} :
    ∀ {l : List α}, l.Chain' (fun x y => lt y x = false) →
      sortedByB lt l = true := by
  intro l
  induction l with
  | nil => intro _; rfl
  | cons a as ih =>
    intro h
    cases as with
    | nil => rfl
    | cons b rest =>
      rw [List.chain'_cons] at h
      simp [sortedByB, h.1, ih h.2]

theorem chain'_all_q {q : α → Bool} :
    ∀ {l : List α} {a : α},
      (a :: l).Chain' (fun x y => q x = true → q y = true) →
      q a = true → ∀ b ∈ a :: l, q b = true := by
  intro l
  induction l with
  | nil =>
    intro a _ ha b hb
    rw [List.mem_singleton] at hb
    exact hb ▸ ha
  | cons c cs ih =>
    intro a hch ha b hb
    have hc : q c = true := (List.chain'_cons.mp hch).1 ha
    rcases List.mem_cons.mp hb with hb | hb
    · exact hb ▸ ha
    · exact ih (List.chain'_cons.mp hch).2 hc b hb

theorem grouping_of_chain' {q : α → Bool} :
    ∀ {l : List α},
      l.Chain' (fun x y => q x = true → q y = true) →
      l = l.filter (fun x => !q x) ++ l.filter q := by
  intro l
  induction l with
  | nil => intro _; rfl
  | cons a rest ih =>
    intro h
    by_cases hq : q a = true
    · have hall : ∀ b ∈ a :: rest, q b = true := chain'_all_q h hq
      have h1 : (a :: rest).filter (fun x => !q x) = [] := by
        rw [List.filter_eq_nil_iff]
        intro x hx
        simp [hall x hx]
      have h2 : (a :: rest).filter q = a :: rest := by
        rw [List.filter_eq_self]
        exact hall
      rw [h1, h2]
      rfl
    · have hq' : q a = false := by
        cases hqa : q a
        · rfl
        · exact absurd hqa hq
      have := ih h.tail
      rw [List.filter_cons, List.filter_cons]
      simp only [hq', Bool.not_false, if_true, Bool.false_eq_true, if_false]
      rw [List.cons_append]
      exact congrArg (a :: ·) this

-- ---------------------------------------------------------------------
-- Order lemmas for the embedded Python comparisons.
-- ---------------------------------------------------------------------

theorem charListLt_asymm :
    ∀ {a b : List Char}, charListLt a b = true → charListLt b a = false := by
  intro a
  induction a with
  | nil =>
    intro b h
    cases b with
    | nil => simp [charListLt] at h
    | cons y ys => simp [charListLt]
  | cons x xs ih =>
    intro b h
    cases b with
    | nil => simp [charListLt] at h
    | cons y ys =>
      simp only [charListLt] at h ⊢
      by_cases hxy : x < y
      · have h1 : ¬ y < x := fun hyx => absurd hxy (not_lt_of_gt hyx)
        simp [h1, hxy]
      · by_cases hyx : y < x
        · rw [if_neg hxy, if_pos hyx] at h
          cases h
        · rw [if_neg hxy, if_neg hyx] at h
          simp [hyx, hxy, ih h]

theorem charListLt_conn :
    ∀ {a b : List Char}, charListLt a b = false → charListLt b a = false →
      a = b := by
  intro a
  induction a with
  | nil =>
    intro b h1 _
    cases b with
    | nil => rfl
    | cons y ys => simp [charListLt] at h1
  | cons x xs ih =>
    intro b h1 h2
    cases b with
    | nil => simp [charListLt] at h2
    | cons y ys =>
      simp only [charListLt] at h1 h2
      by_cases hxy : x < y
      · rw [if_pos hxy] at h1
        cases h1
      · by_cases hyx : y < x
        · rw [if_pos hyx] at h2
          cases h2
        · rw [if_neg hxy, if_neg hyx] at h1
          rw [if_neg hyx, if_neg hxy] at h2
          have hx : x = y := le_antisymm (not_lt.mp hyx) (not_lt.mp hxy)
          rw [hx, ih h1 h2]

theorem numParts_den_pos {v : Value} {n : Int} {d : Nat}
    (h : numParts v = some (n, d)) : 0 < d := by
  cases v with
  | int m =>
    simp only [numParts, Option.some.injEq, Prod.mk.injEq] at h
    omega
  | float q =>
    simp only [numParts, Option.some.injEq, Prod.mk.injEq] at h
    have := q.den_pos
    omega
  | str s => simp [numParts] at h
  | null => simp [numParts] at h

theorem beqIntComm (x y : Int) : (x == y) = (y == x) := by
  by_cases h : x = y
  · simp [h]
  · simp [h, Ne.symm h]

theorem beqStrComm (x y : String) : (x == y) = (y == x) := by
  by_cases h : x = y
  · simp [h]
  · simp [h, Ne.symm h]

theorem pyValEq_symm (a b : Value) : pyValEq a b = pyValEq b a := by
  cases a <;> cases b <;>
    simp only [pyValEq, numParts] <;>
    first
      | rfl
      | exact beqIntComm _ _
      | exact beqStrComm _ _

theorem pyValLt_asymm {a b : Value} (h : pyValLt a b = true) :
    pyValLt b a = false := by
  cases a <;> cases b <;>
    simp only [pyValLt, numParts, decide_eq_true_eq,
      decide_eq_false_iff_not] at h ⊢ <;>
    first
      | cases h
      | exact asymm h
      | exact charListLt_asymm h

theorem keyLt_asymm {k1 k2 : Bool × Value} (h : keyLt k1 k2 = true) :
    keyLt k2 k1 = false := by
  obtain ⟨b1, v1⟩ := k1
  obtain ⟨b2, v2⟩ := k2
  by_cases hb : b1 = b2
  · subst hb
    simp only [keyLt, bne_self_eq_false, Bool.false_eq_true, if_false] at h ⊢
    by_cases he : pyValEq v1 v2 = true
    · rw [if_pos he] at h
      cases h
    · rw [if_neg he] at h
      have he2 : ¬ pyValEq v2 v1 = true := by
        rw [pyValEq_symm]
        exact he
      rw [if_neg he2]
      exact pyValLt_asymm h
  · cases b1 <;> cases b2 <;> simp_all [keyLt]

theorem stageLt_asymm {c ord : String} {x y : Record}
    (h : stageLt c ord x y = true) : stageLt c ord y x = false := by
  unfold stageLt at h ⊢
  by_cases hd : (pyLowerStr ord == "desc") = true
  · rw [if_pos hd] at h ⊢
    exact keyLt_asymm h
  · rw [if_neg hd] at h ⊢
    exact keyLt_asymm h

theorem sortKeyOf_eq (c : String) (r : Record) :
    sortKeyOf c r = (getV r c == Value.null, getV r c) := rfl

theorem pyValEq_null_right {v : Value} (h : pyValEq v Value.null = true) :
    v = Value.null := by
  cases v <;> simp_all [pyValEq, numParts]

theorem pyValEq_num_iff {a b : Value} {n1 n2 : Int} {d1 d2 : Nat}
    (hp1 : numParts a = some (n1, d1)) (hp2 : numParts b = some (n2, d2)) :
    pyValEq a b = true ↔ n1 * (d2 : Int) = n2 * (d1 : Int) := by
  simp [pyValEq, hp1, hp2]

theorem pyValLt_num_iff {a b : Value} {n1 n2 : Int} {d1 d2 : Nat}
    (hp1 : numParts a = some (n1, d1)) (hp2 : numParts b = some (n2, d2)) :
    pyValLt a b = true ↔ n1 * (d2 : Int) < n2 * (d1 : Int) := by
  simp [pyValLt, hp1, hp2]

theorem crossEq_trans {n1 n2 n0 : Int} {d1 d2 d0 : Nat} (h0 : 0 < d0)
    (h1 : n1 * (d0 : Int) = n0 * (d1 : Int))
    (h2 : n2 * (d0 : Int) = n0 * (d2 : Int)) :
    n1 * (d2 : Int) = n2 * (d1 : Int) := by
  have hd : (d0 : Int) ≠ 0 := by
    have : (0 : Int) < (d0 : Int) := by exact_mod_cast h0
    omega
  apply mul_right_cancel₀ hd
  calc n1 * (d2 : Int) * (d0 : Int) = (n1 * d0) * d2 := by ring
    _ = (n0 * d1) * d2 := by rw [h1]
    _ = (n0 * d2) * d1 := by ring
    _ = (n2 * d0) * d1 := by rw [h2]
    _ = n2 * (d1 : Int) * (d0 : Int) := by ring

theorem famNum_numParts {v : Value} (hf : famNum v = true)
    (hn : ¬ v = Value.null) : ∃ n d, numParts v = some (n, d) := by
  cases v with
  | int n => exact ⟨n, 1, rfl⟩
  | float q => exact ⟨q.num, q.den, rfl⟩
  | str s => simp [famNum, numParts] at hf
  | null => exact absurd rfl hn

theorem famStr_isStr {v : Value} (hf : famStr v = true)
    (hn : ¬ v = Value.null) : ∃ s, v = Value.str s := by
  cases v with
  | int n => simp [famStr] at hf
  | float q => simp [famStr] at hf
  | str s => exact ⟨s, rfl⟩
  | null => exact absurd rfl hn

theorem valueTie_eq {v1 v0 : Value}
    (hfam : (famNum v1 = true ∧ famNum v0 = true) ∨
            (famStr v1 = true ∧ famStr v0 = true))
    (h1 : keyLt (v1 == Value.null, v1) (v0 == Value.null, v0) = false)
    (h2 : keyLt (v0 == Value.null, v0) (v1 == Value.null, v1) = false) :
    pyValEq v1 v0 = true ∧ (v1 == Value.null) = (v0 == Value.null) := by
  by_cases hb : (v1 == Value.null) = (v0 == Value.null)
  · refine ⟨?_, hb⟩
    rw [keyLt, hb, bne_self_eq_false] at h1
    rw [keyLt, hb.symm, bne_self_eq_false] at h2
    simp only [Bool.false_eq_true, if_false] at h1 h2
    by_cases he : pyValEq v1 v0 = true
    · exact he
    · exfalso
      have he2 : ¬ pyValEq v0 v1 = true := by
        rw [pyValEq_symm]
        exact he
      rw [if_neg he] at h1
      rw [if_neg he2] at h2
      by_cases hn1 : v1 = Value.null
      · subst hn1
        have hb' : (v0 == Value.null) = true := by
          rw [← hb]
          simp
        have : v0 = Value.null := by simpa using hb'
        subst this
        exact he rfl
      · have hb1 : (v1 == Value.null) = false := by
          simpa using hn1
        have hn0 : ¬ v0 = Value.null := by
          intro hv0
          rw [hv0] at hb
          simp [hb1] at hb
        rcases hfam with ⟨hf1, hf0⟩ | ⟨hf1, hf0⟩
        · obtain ⟨n1, d1, hp1⟩ := famNum_numParts hf1 hn1
          obtain ⟨n0, d0, hp0⟩ := famNum_numParts hf0 hn0
          have l1 : ¬ n1 * (d0 : Int) < n0 * (d1 : Int) := by
            intro hlt
            rw [(pyValLt_num_iff hp1 hp0).mpr hlt] at h1
            cases h1
          have l2 : ¬ n0 * (d1 : Int) < n1 * (d0 : Int) := by
            intro hlt
            rw [(pyValLt_num_iff hp0 hp1).mpr hlt] at h2
            cases h2
          have heq : n1 * (d0 : Int) = n0 * (d1 : Int) :=
            le_antisymm (not_lt.mp l2) (not_lt.mp l1)
          exact he ((pyValEq_num_iff hp1 hp0).mpr heq)
        · obtain ⟨s1, hs1⟩ := famStr_isStr hf1 hn1
          obtain ⟨s0, hs0⟩ := famStr_isStr hf0 hn0
          subst hs1
          subst hs0
          simp only [pyValLt, numParts] at h1 h2
          have : s1.data = s0.data := charListLt_conn h1 h2
          have hss : s1 = s0 := by
            cases s1
            cases s0
            exact congrArg String.mk this
          subst hss
          simp [pyValEq, numParts] at he
  · exfalso
    cases hb1 : (v1 == Value.null) <;> cases hb0 : (v0 == Value.null)
    · exact hb (hb1.trans hb0.symm)
    · rw [keyLt] at h1
      rw [hb1, hb0] at h1
      simp at h1
    · rw [keyLt] at h2
      rw [hb1, hb0] at h2
      simp at h2
    · exact hb (hb1.trans hb0.symm)

theorem valueTie_notLt {v1 v2 v0 : Value}
    (hfam : (famNum v1 = true ∧ famNum v2 = true ∧ famNum v0 = true) ∨
            (famStr v1 = true ∧ famStr v2 = true ∧ famStr v0 = true))
    (t1 : pyValEq v1 v0 = true) (t2 : pyValEq v2 v0 = true)
    (hb1 : (v1 == Value.null) = (v0 == Value.null))
    (hb2 : (v2 == Value.null) = (v0 == Value.null)) :
    keyLt (v1 == Value.null, v1) (v2 == Value.null, v2) = false := by
  have heq : pyValEq v1 v2 = true := by
    by_cases hn0 : v0 = Value.null
    · subst hn0
      rw [pyValEq_null_right t1, pyValEq_null_right t2]
      rfl
    · have hb0 : (v0 == Value.null) = false := by simpa using hn0
      have hn1 : ¬ v1 = Value.null := by
        intro h
        rw [h] at hb1
        rw [hb0] at hb1
        simp at hb1
      have hn2 : ¬ v2 = Value.null := by
        intro h
        rw [h] at hb2
        rw [hb0] at hb2
        simp at hb2
      rcases hfam with ⟨hf1, hf2, hf0⟩ | ⟨hf1, hf2, hf0⟩
      · obtain ⟨n1, d1, hp1⟩ := famNum_numParts hf1 hn1
        obtain ⟨n2, d2, hp2⟩ := famNum_numParts hf2 hn2
        obtain ⟨n0, d0, hp0⟩ := famNum_numParts hf0 hn0
        have e1 := (pyValEq_num_iff hp1 hp0).mp t1
        have e2 := (pyValEq_num_iff hp2 hp0).mp t2
        exact (pyValEq_num_iff hp1 hp2).mpr
          (crossEq_trans (numParts_den_pos hp0) e1 e2)
      · obtain ⟨s1, hs1⟩ := famStr_isStr hf1 hn1
        obtain ⟨s2, hs2⟩ := famStr_isStr hf2 hn2
        obtain ⟨s0, hs0⟩ := famStr_isStr hf0 hn0
        subst hs1
        subst hs2
        subst hs0
        simp only [pyValEq, numParts, beq_iff_eq] at t1 t2 ⊢
        rw [t1, t2]
  rw [keyLt, hb1.trans hb2.symm, bne_self_eq_false]
  simp [heq]

theorem tieKey_parts {c : String} {r1 r2 : Record} (h : tieKey c r1 r2 = true) :
    keyLt (sortKeyOf c r1) (sortKeyOf c r2) = false ∧
    keyLt (sortKeyOf c r2) (sortKeyOf c r1) = false := by
  rw [tieKey, Bool.and_eq_true, Bool.not_eq_true', Bool.not_eq_true'] at h
  exact h

theorem stageLt_eq_false_of_ties {c ord : String} {x y r0 : Record}
    (hfam : (famNum (getV x c) = true ∧ famNum (getV y c) = true ∧
             famNum (getV r0 c) = true) ∨
            (famStr (getV x c) = true ∧ famStr (getV y c) = true ∧
             famStr (getV r0 c) = true))
    (t1 : tieKey c x r0 = true) (t2 : tieKey c y r0 = true) :
    stageLt c ord x y = false := by
  obtain ⟨t1a, t1b⟩ := tieKey_parts t1
  obtain ⟨t2a, t2b⟩ := tieKey_parts t2
  simp only [sortKeyOf_eq] at t1a t1b t2a t2b
  have hfam1 : (famNum (getV x c) = true ∧ famNum (getV r0 c) = true) ∨
      (famStr (getV x c) = true ∧ famStr (getV r0 c) = true) := by
    rcases hfam with ⟨a, _, b⟩ | ⟨a, _, b⟩
    · exact Or.inl ⟨a, b⟩
    · exact Or.inr ⟨a, b⟩
  have hfam2 : (famNum (getV y c) = true ∧ famNum (getV r0 c) = true) ∨
      (famStr (getV y c) = true ∧ famStr (getV r0 c) = true) := by
    rcases hfam with ⟨_, a, b⟩ | ⟨_, a, b⟩
    · exact Or.inl ⟨a, b⟩
    · exact Or.inr ⟨a, b⟩
  obtain ⟨e1, f1⟩ := valueTie_eq hfam1 t1a t1b
  obtain ⟨e2, f2⟩ := valueTie_eq hfam2 t2a t2b
  have hxy : keyLt (getV x c == Value.null, getV x c)
      (getV y c == Value.null, getV y c) = false := by
    rcases hfam with ⟨a, b, cc⟩ | ⟨a, b, cc⟩
    · exact valueTie_notLt (Or.inl ⟨a, b, cc⟩) e1 e2 f1 f2
    · exact valueTie_notLt (Or.inr ⟨a, b, cc⟩) e1 e2 f1 f2
  have hyx : keyLt (getV y c == Value.null, getV y c)
      (getV x c == Value.null, getV x c) = false := by
    rcases hfam with ⟨a, b, cc⟩ | ⟨a, b, cc⟩
    · exact valueTie_notLt (Or.inl ⟨b, a, cc⟩) e2 e1 f2 f1
    · exact valueTie_notLt (Or.inr ⟨b, a, cc⟩) e2 e1 f2 f1
  rw [stageLt]
  by_cases hd : (pyLowerStr ord == "desc") = true
  · rw [if_pos hd, sortKeyOf_eq, sortKeyOf_eq]
    exact hyx
  · rw [if_neg hd, sortKeyOf_eq, sortKeyOf_eq]
    exact hxy

theorem foldl_sSort_filter {p : Record → Bool} :
    ∀ (ks : List (String × String)) (l : Dataset),
      (∀ ck ∈ ks, ∀ x ∈ l, ∀ y ∈ l, p x = true → p y = true →
        stageLt ck.1 ck.2 x y = false) →
      ((ks.foldl (fun cur ck => sSort (stageLt ck.1 ck.2) cur) l).filter p
          = l.filter p) ∧
      (ks.foldl (fun cur ck => sSort (stageLt ck.1 ck.2) cur) l).Perm l := by
  intro ks
  induction ks with
  | nil =>
    intro l _
    exact ⟨rfl, List.Perm.refl l⟩
  | cons ck ks ih =>
    intro l hp
    simp only [List.foldl_cons]
    have hstep : (sSort (stageLt ck.1 ck.2) l).filter p = l.filter p :=
      filter_sSort (fun x hx y hy hpx hpy =>
        hp ck (List.mem_cons_self ck ks) x hx y hy hpx hpy)
    have hperm : (sSort (stageLt ck.1 ck.2) l).Perm l := sSort_perm _ l
    have hp2 : ∀ ck' ∈ ks, ∀ x ∈ sSort (stageLt ck.1 ck.2) l,
        ∀ y ∈ sSort (stageLt ck.1 ck.2) l, p x = true → p y = true →
        stageLt ck'.1 ck'.2 x y = false := by
      intro ck' hck' x hx y hy hpx hpy
      exact hp ck' (List.mem_cons_of_mem ck hck') x (hperm.mem_iff.mp hx) y
        (hperm.mem_iff.mp hy) hpx hpy
    have ih' := ih _ hp2
    exact ⟨ih'.1.trans hstep, ih'.2.trans hperm⟩

theorem foldl_sSort_map {f : Record → Record}
    (hf : ∀ (c ord : String) (x y : Record),
      stageLt c ord (f x) (f y) = stageLt c ord x y) :
    ∀ (ks : List (String × String)) (l : Dataset),
      ks.foldl (fun cur ck => sSort (stageLt ck.1 ck.2) cur) (l.map f)
        = (ks.foldl (fun cur ck => sSort (stageLt ck.1 ck.2) cur) l).map f := by
  intro ks
  induction ks with
  | nil => intro l; rfl
  | cons ck ks ih =>
    intro l
    simp only [List.foldl_cons]
    rw [map_sSort (fun x y => hf ck.1 ck.2 x y) l]
    exact ih (sSort (stageLt ck.1 ck.2) l)

theorem transform_sort_single (d : Dataset) (c ord : String) :
    transform_sort_data d [(c, ord)] = sSort (stageLt c ord) d := by
  cases d with
  | nil => rfl
  | cons r rs =>
    simp [transform_sort_data, List.foldl]

theorem keyLt_present_absent {c : String} {x y : Record}
    (hx : presentVal c x = false) (hy : presentVal c y = true) :
    keyLt (sortKeyOf c y) (sortKeyOf c x) = true := by
  have hx' : (getV x c == Value.null) = true := by
    simpa [presentVal] using hx
  have hy' : (getV y c == Value.null) = false := by
    simpa [presentVal] using hy
  rw [sortKeyOf_eq, sortKeyOf_eq, keyLt, hy', hx']
  simp

-- ---------------------------------------------------------------------
-- Claim C8 — sort stability.
-- ---------------------------------------------------------------------

/-- C8: the multi-key sort is stable.  For every dataset, key list and
reference record of the dataset (on kind-homogeneous sort columns,
where Python's comparisons are defined), the records that compare equal
to the reference on all keys appear in the sorted output in exactly
their original relative input order. -/
theorem c8_sort_stable (d : Dataset) (keys : List (String × String))
    (r0 : Record) (hr0 : r0 ∈ d)
    (hgood : keys.all (fun ck => columnGood ck.1 d) = true) :
    (transform_sort_data d keys).filter (fun r => tieAll keys r r0)
      = d.filter (fun r => tieAll keys r r0) := by
  unfold transform_sort_data
  by_cases hc : (d.isEmpty || keys.isEmpty) = true
  · rw [if_pos hc]
  · rw [if_neg hc]
    apply (foldl_sSort_filter keys.reverse d ?_).1
    intro ck hck x hx y hy hpx hpy
    have hckk : ck ∈ keys := List.mem_reverse.mp hck
    have hcg : columnGood ck.1 d = true := List.all_eq_true.mp hgood ck hckk
    have hfam : (famNum (getV x ck.1) = true ∧ famNum (getV y ck.1) = true ∧
        famNum (getV r0 ck.1) = true) ∨
        (famStr (getV x ck.1) = true ∧ famStr (getV y ck.1) = true ∧
        famStr (getV r0 ck.1) = true) := by
      rw [columnGood, Bool.or_eq_true] at hcg
      rcases hcg with h | h
      · rw [List.all_eq_true] at h
        exact Or.inl ⟨h x hx, h y hy, h r0 hr0⟩
      · rw [List.all_eq_true] at h
        exact Or.inr ⟨h x hx, h y hy, h r0 hr0⟩
    have t1 : tieKey ck.1 x r0 = true := List.all_eq_true.mp hpx ck hckk
    have t2 : tieKey ck.1 y r0 = true := List.all_eq_true.mp hpy ck hckk
    exact stageLt_eq_false_of_ties hfam t1 t2

/-- Witness for C8 at a concrete dataset with a genuine tie. -/
theorem c8_sort_stable_witness :
    ([("A", Value.int 1), ("B", Value.int 9)] : Record) ∈
      ([[("A", Value.int 1), ("B", Value.int 9)], [("A", Value.int 0)],
        [("A", Value.int 1), ("B", Value.int 7)]] : Dataset) ∧
    ([("A", "asc")] : List (String × String)).all
      (fun ck => columnGood ck.1
        [[("A", Value.int 1), ("B", Value.int 9)], [("A", Value.int 0)],
         [("A", Value.int 1), ("B", Value.int 7)]]) = true ∧
    (transform_sort_data
        [[("A", Value.int 1), ("B", Value.int 9)], [("A", Value.int 0)],
         [("A", Value.int 1), ("B", Value.int 7)]] [("A", "asc")]).filter
      (fun r => tieAll [("A", "asc")] r [("A", Value.int 1), ("B", Value.int 9)])
      = ([[("A", Value.int 1), ("B", Value.int 9)], [("A", Value.int 0)],
          [("A", Value.int 1), ("B", Value.int 7)]] : Dataset).filter
      (fun r => tieAll [("A", "asc")] r [("A", Value.int 1), ("B", Value.int 9)]) :=
  ⟨by decide, by decide, c8_sort_stable _ _ _ (by decide) (by decide)⟩

-- ---------------------------------------------------------------------
-- Claim C1 — grouping of records with a missing sort column.
-- ---------------------------------------------------------------------

/-- C1 counterexample: on `sort:A:asc` the record missing column `A`
comes out last, so the claimed direction-invariant absent-first
grouping fails for `asc`. -/
theorem c1_counterexample :
    transform_sort_data ([[("A", Value.int 1)], ([] : Record)] : Dataset)
        [("A", "asc")]
      = ([[("A", Value.int 1)], ([] : Record)] : Dataset) ∧
    dictGet ([] : Record) "A" = none ∧
    ¬ ((transform_sort_data ([[("A", Value.int 1)], ([] : Record)] : Dataset)
          [("A", "asc")]).filter (fun r => !presentVal "A" r) ++
       (transform_sort_data ([[("A", Value.int 1)], ([] : Record)] : Dataset)
          [("A", "asc")]).filter (fun r => presentVal "A" r)
        = transform_sort_data ([[("A", Value.int 1)], ([] : Record)] : Dataset)
          [("A", "asc")]) := by
  refine ⟨by decide, rfl, by decide⟩

/-- C1 (amended): for one sort key the missing-column records (and
explicit-null records, which the key conflates with them) are grouped
after all present-valued records for `asc` and before them for `desc` —
the grouping flips with the direction — and the present values appear
in ascending key order for `asc`, descending for `desc`. -/
theorem c1_sort_missing_grouping (d : Dataset) (c : String)
    (hgood : columnGood c d = true) :
    (transform_sort_data d [(c, "asc")]
       = (transform_sort_data d [(c, "asc")]).filter (fun r => presentVal c r)
         ++ (transform_sort_data d [(c, "asc")]).filter
              (fun r => !presentVal c r)) ∧
    (transform_sort_data d [(c, "desc")]
       = (transform_sort_data d [(c, "desc")]).filter (fun r => !presentVal c r)
         ++ (transform_sort_data d [(c, "desc")]).filter
              (fun r => presentVal c r)) ∧
    sortedByB (stageLt c "asc") (transform_sort_data d [(c, "asc")]) = true ∧
    sortedByB (stageLt c "desc") (transform_sort_data d [(c, "desc")]) = true := by
  have hA : (pyLowerStr "asc" == "desc") = false := by decide
  have hD : (pyLowerStr "desc" == "desc") = true := by decide
  rw [transform_sort_single, transform_sort_single]
  have chainA : (sSort (stageLt c "asc") d).Chain'
      (fun x y => stageLt c "asc" y x = false) :=
    chain'_sSort (fun x y h => stageLt_asymm h) d
  have chainD : (sSort (stageLt c "desc") d).Chain'
      (fun x y => stageLt c "desc" y x = false) :=
    chain'_sSort (fun x y h => stageLt_asymm h) d
  refine ⟨?_, ?_, sortedByB_eq_true_of_chain' chainA,
    sortedByB_eq_true_of_chain' chainD⟩
  · have himp : ∀ x y, (stageLt c "asc" y x = false) →
        ((!presentVal c x) = true → (!presentVal c y) = true) := by
      intro x y h hx
      cases hy : presentVal c y
      · rfl
      · exfalso
        have hx' : presentVal c x = false := by
          cases hpx : presentVal c x
          · rfl
          · rw [hpx] at hx
            cases hx
        have hkey := keyLt_present_absent hx' hy
        rw [stageLt, if_neg (by rw [hA]; intro hfalse; cases hfalse)] at h
        rw [h] at hkey
        cases hkey
    have hgrp := grouping_of_chain' (chainA.imp himp)
    simp only [Bool.not_not] at hgrp
    exact hgrp
  · have himp : ∀ x y, (stageLt c "desc" y x = false) →
        (presentVal c x = true → presentVal c y = true) := by
      intro x y h hx
      cases hy : presentVal c y
      · exfalso
        have hkey := keyLt_present_absent hy hx
        rw [stageLt, if_pos hD] at h
        rw [h] at hkey
        cases hkey
      · rfl
    exact grouping_of_chain' (chainD.imp himp)

/-- Witness for the amended C1 at a concrete dataset. -/
theorem c1_sort_missing_grouping_witness :
    columnGood "A"
      ([[("A", Value.int 1)], ([] : Record), [("A", Value.int 0)]] : Dataset)
      = true ∧
    (transform_sort_data
        ([[("A", Value.int 1)], ([] : Record), [("A", Value.int 0)]] : Dataset)
        [("A", "asc")]
      = (transform_sort_data
          ([[("A", Value.int 1)], ([] : Record), [("A", Value.int 0)]] : Dataset)
          [("A", "asc")]).filter (fun r => presentVal "A" r)
        ++ (transform_sort_data
          ([[("A", Value.int 1)], ([] : Record), [("A", Value.int 0)]] : Dataset)
          [("A", "asc")]).filter (fun r => !presentVal "A" r)) ∧
    (transform_sort_data
        ([[("A", Value.int 1)], ([] : Record), [("A", Value.int 0)]] : Dataset)
        [("A", "desc")]
      = (transform_sort_data
          ([[("A", Value.int 1)], ([] : Record), [("A", Value.int 0)]] : Dataset)
          [("A", "desc")]).filter (fun r => !presentVal "A" r)
        ++ (transform_sort_data
          ([[("A", Value.int 1)], ([] : Record), [("A", Value.int 0)]] : Dataset)
          [("A", "desc")]).filter (fun r => presentVal "A" r)) ∧
    sortedByB (stageLt "A" "asc")
      (transform_sort_data
        ([[("A", Value.int 1)], ([] : Record), [("A", Value.int 0)]] : Dataset)
        [("A", "asc")]) = true ∧
    sortedByB (stageLt "A" "desc")
      (transform_sort_data
        ([[("A", Value.int 1)], ([] : Record), [("A", Value.int 0)]] : Dataset)
        [("A", "desc")]) = true := by
  have h := c1_sort_missing_grouping
    ([[("A", Value.int 1)], ([] : Record), [("A", Value.int 0)]] : Dataset) "A"
    (by decide)
  exact ⟨by decide, h.1, h.2.1, h.2.2.1, h.2.2.2⟩

-- ---------------------------------------------------------------------
-- Claim C10 — an explicit null sorts exactly like a missing column.
-- ---------------------------------------------------------------------

theorem dictGet_append (l1 l2 : Record) (k : String) :
    dictGet (l1 ++ l2) k =
      match dictGet l1 k with
      | some v => some v
      | none => dictGet l2 k := by
  induction l1 with
  | nil => rfl
  | cons p rest ih =>
    obtain ⟨k', v'⟩ := p
    by_cases h : k' = k
    · simp [dictGet, h]
    · simp [dictGet, h, ih]

theorem sortKeyOf_nullFill {r : Record} {c : String}
    (h : dictGet r c = none) (c' : String) (x : Record) :
    sortKeyOf c' (if x = r then r ++ [(c, Value.null)] else x)
      = sortKeyOf c' x := by
  by_cases hx : x = r
  · subst hx
    rw [if_pos rfl]
    rw [sortKeyOf_eq, sortKeyOf_eq]
    have : getV (x ++ [(c, Value.null)]) c' = getV x c' := by
      rw [getV, getV, dictGet_append]
      cases hg : dictGet x c'
      · by_cases hc : c = c'
        · subst hc
          simp [dictGet]
        · simp [dictGet, hc]
      · rfl
    rw [this]
  · rw [if_neg hx]

/-- C10: the sort does not distinguish a record missing the sort column
from the same record carrying an explicit null there: materialising the
missing column as `Null` (in every occurrence of the record) commutes
with sorting, because the key is computed by lookup-with-default and
yields the same `(True, None)` pair in both cases. -/
theorem c10_null_eq_missing (d : Dataset) (keys : List (String × String))
    (r : Record) (c : String) (h : dictGet r c = none) :
    transform_sort_data
        (d.map (fun x => if x = r then r ++ [(c, Value.null)] else x)) keys
      = (transform_sort_data d keys).map
          (fun x => if x = r then r ++ [(c, Value.null)] else x) := by
  have hf : ∀ (c' ord : String) (x y : Record),
      stageLt c' ord (if x = r then r ++ [(c, Value.null)] else x)
        (if y = r then r ++ [(c, Value.null)] else y) = stageLt c' ord x y := by
    intro c' ord x y
    rw [stageLt, stageLt, sortKeyOf_nullFill h, sortKeyOf_nullFill h]
  have hemp : (d.map (fun x => if x = r then r ++ [(c, Value.null)] else x)).isEmpty
      = d.isEmpty := by
    cases d <;> rfl
  unfold transform_sort_data
  by_cases hc : (d.isEmpty || keys.isEmpty) = true
  · rw [hemp]
    rw [if_pos hc, if_pos hc]
  · rw [hemp]
    rw [if_neg hc, if_neg hc]
    exact foldl_sSort_map hf keys.reverse d

/-- Witness for C10 at a concrete dataset. -/
theorem c10_null_eq_missing_witness :
    dictGet ([("B", Value.int 5)] : Record) "A" = none ∧
    transform_sort_data
        (([[("A", Value.int 1)], [("B", Value.int 5)]] : Dataset).map
          (fun x => if x = [("B", Value.int 5)] then
            [("B", Value.int 5)] ++ [("A", Value.null)] else x)) [("A", "desc")]
      = (transform_sort_data ([[("A", Value.int 1)], [("B", Value.int 5)]] : Dataset)
          [("A", "desc")]).map
          (fun x => if x = [("B", Value.int 5)] then
            [("B", Value.int 5)] ++ [("A", Value.null)] else x) :=
  ⟨rfl, c10_null_eq_missing _ [("A", "desc")] [("B", Value.int 5)] "A" rfl⟩

-- ---------------------------------------------------------------------
-- Claim C3 — position of a renamed field.
-- ---------------------------------------------------------------------

theorem dictSet_of_absent {l : Record} {k : String} (h : dictGet l k = none)
    (v : Value) : dictSet l k v = l ++ [(k, v)] := by
  induction l with
  | nil => rfl
  | cons p rest ih =>
    obtain ⟨k', v'⟩ := p
    by_cases hk : k' = k
    · rw [dictGet, if_pos hk] at h
      cases h
    · rw [dictGet, if_neg hk] at h
      rw [dictSet, if_neg hk, List.cons_append, ih h]

/-- C3 counterexample: renaming `A` to `C` on the record `{A: 1, B: 2}`
yields `{B: 2, C: 1}` — the renamed field is appended at the end, not
left in `A`'s original first slot as the claim states. -/
theorem c3_counterexample :
    transform_rename_columns
        ([[("A", Value.int 1), ("B", Value.int 2)]] : Dataset) [("A", "C")]
      = ([[("B", Value.int 2), ("C", Value.int 1)]] : Dataset) ∧
    ¬ transform_rename_columns
        ([[("A", Value.int 1), ("B", Value.int 2)]] : Dataset) [("A", "C")]
      = ([[("C", Value.int 1), ("B", Value.int 2)]] : Dataset) := by
  refine ⟨rfl, by decide⟩

/-- C3 (amended): for a one-pair map whose old field is present, the
binding for `old` is removed from its slot and the same value is stored
under `new`: in `new`'s pre-existing position when `new` already occurs
in the remainder, otherwise appended at the end of the record's field
order (not at `old`'s former slot). -/
theorem c3_rename_position (r : Record) (old new : String) (v : Value)
    (h : dictGet r old = some v) :
    transform_rename_columns [r] [(old, new)]
      = [if (dictGet (dictErase r old) new).isSome = true
         then dictSet (dictErase r old) new v
         else dictErase r old ++ [(new, v)]] := by
  have hr : transform_rename_columns [r] [(old, new)]
      = [renameStep r (old, new)] := rfl
  rw [hr]
  rw [renameStep]
  simp only [h]
  by_cases hn : (dictGet (dictErase r old) new).isSome = true
  · rw [if_pos hn]
  · rw [if_neg hn]
    have : dictGet (dictErase r old) new = none := by
      cases hg : dictGet (dictErase r old) new
      · rfl
      · rw [hg] at hn
        simp at hn
    rw [dictSet_of_absent this]

/-- Witness for the amended C3: renaming onto a fresh name appends at
the end; renaming onto an existing name overwrites in place. -/
theorem c3_rename_position_witness :
    dictGet ([("A", Value.int 1), ("B", Value.int 2)] : Record) "A"
      = some (Value.int 1) ∧
    transform_rename_columns
        ([[("A", Value.int 1), ("B", Value.int 2)]] : Dataset) [("A", "C")]
      = [if (dictGet (dictErase [("A", Value.int 1), ("B", Value.int 2)] "A")
            "C").isSome = true
         then dictSet (dictErase [("A", Value.int 1), ("B", Value.int 2)] "A")
            "C" (Value.int 1)
         else dictErase [("A", Value.int 1), ("B", Value.int 2)] "A"
            ++ [("C", Value.int 1)]] :=
  ⟨rfl, c3_rename_position [("A", Value.int 1), ("B", Value.int 2)] "A" "C"
    (Value.int 1) rfl⟩

-- ---------------------------------------------------------------------
-- Claim C2 — comparison filters across incompatible kinds.
-- ---------------------------------------------------------------------

theorem pyCompare_none_of_not_family {a b : Value}
    (h : sameKindFamily a b = false) : pyCompare a b = none := by
  cases a <;> cases b <;>
    simp_all [sameKindFamily, pyCompare, numParts]

theorem pyValEq_false_of_not_family {a b : Value}
    (h : sameKindFamily a b = false) : pyValEq a b = false := by
  cases a <;> cases b <;>
    simp_all [sameKindFamily, pyValEq, numParts]

/-- C2 counterexample: with field value `"abc"` (String) and literal
`5` (coerced Integer) the operator `!=` does not exclude the record —
Python's `!=` across kinds is simply `True` — contradicting the claim
that every comparison operator excludes kind-mismatched records. -/
theorem c2_counterexample :
    sameKindFamily (Value.str "abc")
      (_try_convert_type (Value.str "5")) = false ∧
    transform_filter_rows ([[("A", Value.str "abc")]] : Dataset) "A" "!=" "5"
      = ([[("A", Value.str "abc")]] : Dataset) := by
  refine ⟨by decide, by decide⟩

/-- C2 (amended): when a record's field value and the coerced literal
are of incompatible kinds, the comparison operators `>`, `<`, `>=`,
`<=`, `==` exclude the record without error, but `!=` includes it
(a kind mismatch counts as "not equal" in Python). -/
theorem c2_filter_kind_mismatch (d : Dataset) (col lit op : String)
    (r : Record) (v : Value) (hr : r ∈ d) (hv : dictGet r col = some v)
    (hk : sameKindFamily v (_try_convert_type (Value.str lit)) = false) :
    ((op = ">" ∨ op = "<" ∨ op = ">=" ∨ op = "<=" ∨ op = "==") →
      r ∉ transform_filter_rows d col op lit) ∧
    r ∈ transform_filter_rows d col "!=" lit := by
  have hne : d.isEmpty = false := by
    cases d with
    | nil => cases hr
    | cons a as => rfl
  have hcmp := pyCompare_none_of_not_family hk
  have heq := pyValEq_false_of_not_family hk
  constructor
  · intro hop hmem
    rw [transform_filter_rows] at hmem
    rw [hne] at hmem
    simp only [Bool.false_eq_true, if_false] at hmem
    have hmatch := (List.mem_filter.mp hmem).2
    rw [rowMatches, hv] at hmatch
    rcases hop with h | h | h | h | h <;> subst h <;>
      simp [hcmp, heq] at hmatch
  · rw [transform_filter_rows]
    rw [hne]
    simp only [Bool.false_eq_true, if_false]
    apply List.mem_filter.mpr
    refine ⟨hr, ?_⟩
    rw [rowMatches, hv]
    simp [heq]

/-- Witness for the amended C2 at a concrete record and literal. -/
theorem c2_filter_kind_mismatch_witness :
    (([("A", Value.str "abc")] : Record) ∈
      ([[("A", Value.str "abc")]] : Dataset)) ∧
    (("==" = ">" ∨ "==" = "<" ∨ "==" = ">=" ∨ "==" = "<=" ∨ "==" = "==") →
      ([("A", Value.str "abc")] : Record) ∉
        transform_filter_rows ([[("A", Value.str "abc")]] : Dataset) "A" "==" "5") ∧
    ([("A", Value.str "abc")] : Record) ∈
      transform_filter_rows ([[("A", Value.str "abc")]] : Dataset) "A" "!=" "5" := by
  have h := c2_filter_kind_mismatch ([[("A", Value.str "abc")]] : Dataset)
    "A" "5" "==" [("A", Value.str "abc")] (Value.str "abc")
    (by decide) (by decide) (by decide)
  exact ⟨by decide, h.1, h.2⟩

-- ---------------------------------------------------------------------
-- Claim C4 — the `+` concatenation heuristic.
-- ---------------------------------------------------------------------

/-- C4 counterexample: in `A+B2` the right-hand operand text `B2` is
not purely numeric and does not start with a quote, yet the code takes
the arithmetic branch (the text merely contains a digit) and stores
Null instead of the concatenation of the two sides. -/
theorem c4_counterexample :
    pyContains "A+B2" '+' = true ∧
    (plusRhsSeg "A+B2").data.all Char.isDigit = false ∧
    startsWithChar (plusRhsSeg "A+B2") (Char.ofNat 34) = false ∧
    startsWithChar (plusRhsSeg "A+B2") (Char.ofNat 39) = false ∧
    transform_add_modify_column ([[("A", Value.str "x")]] : Dataset) "C" "A+B2"
      = ([[("A", Value.str "x"), ("C", Value.null)]] : Dataset) ∧
    ¬ transform_add_modify_column ([[("A", Value.str "x")]] : Dataset) "C" "A+B2"
      = ([[("A", Value.str "x"),
           ("C", Value.str (concatSide [("A", Value.str "x")] "A"
             ++ concatSide [("A", Value.str "x")] "B2"))]] : Dataset) := by
  refine ⟨by decide, by decide, by decide, by decide, by decide, by decide⟩

/-- C4 (amended): the concatenation branch fires when the text after
the first `+` (up to a second `+`) contains no digit at all — not
merely "is not purely numeric" — and does not start with a quote; the
new field is then the concatenation of the two trimmed sides, each
resolved as the stringified value of an existing field, else as the
side's own text when it is not purely alphanumeric, else as the empty
string (a bare missing field name). -/
theorem c4_concat (d : Dataset) (name expr s1 s2 : String)
    (h1 : pyContains expr '+' = true)
    (h2 : (plusRhsSeg expr).data.any Char.isDigit = false)
    (h3 : startsWithChar (plusRhsSeg expr) (Char.ofNat 34) = false)
    (h4 : startsWithChar (plusRhsSeg expr) (Char.ofNat 39) = false)
    (hparts : (pySplit1 '+' expr).map pyStrip = [s1, s2]) :
    transform_add_modify_column d name expr
      = d.map (fun r => dictSet r name
          (Value.str (concatSide r s1 ++ concatSide r s2))) := by
  have hcond : concatCond expr = true := by
    rw [concatCond, h1, h2, h3]
    rfl
  have hrow : addModifyRow name expr = fun r =>
      dictSet r name (Value.str (concatSide r s1 ++ concatSide r s2)) := by
    funext r
    rw [addModifyRow, if_pos hcond, hparts]
  cases d with
  | nil => rfl
  | cons a as =>
    have hred : transform_add_modify_column (a :: as) name expr
        = (a :: as).map (addModifyRow name expr) := rfl
    rw [hred, hrow]

/-- Witness for the amended C4 on the spec's own example. -/
theorem c4_concat_witness :
    pyContains "FirstName+LastName" '+' = true ∧
    (plusRhsSeg "FirstName+LastName").data.any Char.isDigit = false ∧
    startsWithChar (plusRhsSeg "FirstName+LastName") (Char.ofNat 34) = false ∧
    startsWithChar (plusRhsSeg "FirstName+LastName") (Char.ofNat 39) = false ∧
    (pySplit1 '+' "FirstName+LastName").map pyStrip
      = ["FirstName", "LastName"] ∧
    transform_add_modify_column
        ([[("FirstName", Value.str "Ann"), ("LastName", Value.str "Lee")]] :
          Dataset) "FullName" "FirstName+LastName"
      = ([[("FirstName", Value.str "Ann"), ("LastName", Value.str "Lee")]] :
          Dataset).map (fun r => dictSet r "FullName"
            (Value.str (concatSide r "FirstName" ++ concatSide r "LastName"))) :=
  ⟨by decide, by decide, by decide, by decide, by decide,
    c4_concat _ "FullName" "FirstName+LastName" "FirstName" "LastName"
      (by decide) (by decide) (by decide) (by decide) (by decide)⟩

-- ---------------------------------------------------------------------
-- Claim C5 — quoted literals and their priority.
-- ---------------------------------------------------------------------

/-- C5 counterexample: the expression `"a*b"` is wrapped in matching
double quotes, but because it contains `*` the arithmetic branch runs
first: the left operand `"a` names no field and the result is Null, not
the literal `a*b` — the quoted-literal rule does not take precedence. -/
theorem c5_counterexample :
    (startsWithChar "\"a*b\"" (Char.ofNat 34) &&
      endsWithChar "\"a*b\"" (Char.ofNat 34)) = true ∧
    transform_add_modify_column ([[("X", Value.int 1)]] : Dataset) "C" "\"a*b\""
      = ([[("X", Value.int 1), ("C", Value.null)]] : Dataset) ∧
    ¬ transform_add_modify_column ([[("X", Value.int 1)]] : Dataset) "C"
        "\"a*b\""
      = ([[("X", Value.int 1), ("C", Value.str "a*b")]] : Dataset) := by
  refine ⟨by decide, by decide, by decide⟩

/-- C5 (amended): the quoted-literal rule applies only to expressions
containing neither `+` nor `*`: such an expression wrapped in a
matching pair of double or single quotes sets the field to the literal
content with the surrounding quotes stripped; the `+` and `*` branches
take precedence otherwise. -/
theorem c5_quoted_literal (d : Dataset) (name expr : String)
    (h1 : pyContains expr '+' = false)
    (h2 : pyContains expr '*' = false)
    (h3 : ((startsWithChar expr (Char.ofNat 34) &&
        endsWithChar expr (Char.ofNat 34)) ||
        (startsWithChar expr (Char.ofNat 39) &&
        endsWithChar expr (Char.ofNat 39))) = true) :
    transform_add_modify_column d name expr
      = d.map (fun r => dictSet r name
          (Value.str (String.mk (expr.data.drop 1).dropLast))) := by
  have hcc : concatCond expr = false := by
    rw [concatCond, h1]
    rfl
  have hac : arithCond expr = false := by
    rw [arithCond, h1, h2]
    rfl
  have hrow : addModifyRow name expr = fun r =>
      dictSet r name (Value.str (String.mk (expr.data.drop 1).dropLast)) := by
    funext r
    rw [addModifyRow, if_neg (by rw [hcc]; intro hh; cases hh),
      if_neg (by rw [hac]; intro hh; cases hh), if_pos h3]
  cases d with
  | nil => rfl
  | cons a as =>
    have hred : transform_add_modify_column (a :: as) name expr
        = (a :: as).map (addModifyRow name expr) := rfl
    rw [hred, hrow]

/-- Witness for the amended C5 on a quoted literal without operators. -/
theorem c5_quoted_literal_witness :
    pyContains "\"hello\"" '+' = false ∧
    pyContains "\"hello\"" '*' = false ∧
    ((startsWithChar "\"hello\"" (Char.ofNat 34) &&
        endsWithChar "\"hello\"" (Char.ofNat 34)) ||
      (startsWithChar "\"hello\"" (Char.ofNat 39) &&
        endsWithChar "\"hello\"" (Char.ofNat 39))) = true ∧
    transform_add_modify_column ([[("X", Value.int 1)]] : Dataset) "Status"
        "\"hello\""
      = ([[("X", Value.int 1)]] : Dataset).map (fun r => dictSet r "Status"
          (Value.str (String.mk (("\"hello\"").data.drop 1).dropLast))) :=
  ⟨by decide, by decide, by decide,
    c5_quoted_literal _ "Status" "\"hello\"" (by decide) (by decide) (by decide)⟩

-- ---------------------------------------------------------------------
-- Claim C7 — arithmetic expressions and numeric promotion.
-- ---------------------------------------------------------------------

/-- C7 counterexample: on the record `{A: "5"}` (a String field) the
expression `A*3` yields Integer 15, because the code re-coerces the
stored field value with `_try_convert_type` before the numeric check —
the claim's "its Value non-numeric ⇒ Null" is false. -/
theorem c7_counterexample :
    transform_add_modify_column ([[("A", Value.str "5")]] : Dataset) "B" "A*3"
      = ([[("A", Value.str "5"), ("B", Value.int 15)]] : Dataset) ∧
    ¬ transform_add_modify_column ([[("A", Value.str "5")]] : Dataset) "B" "A*3"
      = ([[("A", Value.str "5"), ("B", Value.null)]] : Dataset) := by
  refine ⟨by decide, by decide⟩

theorem pyArith_float {op : Char} {a b : Value}
    (ha : (numParts a).isSome = true) (hb : (numParts b).isSome = true)
    (hni : ¬ ∃ n m : Int, a = Value.int n ∧ b = Value.int m) :
    pyArith op a b = Value.float
      (if op = '*' then toQ a * toQ b else toQ a + toQ b) := by
  cases a <;> cases b <;> simp_all [pyArith, numParts, toQ]

theorem addModifyRow_arith (r : Record) (name expr colName litStr : String)
    (hcc : concatCond expr = false) (hac : arithCond expr = true)
    (hparts : (pySplit1 (if pyContains expr '*' = true then '*' else '+')
        expr).map pyStrip = [colName, litStr]) :
    addModifyRow name expr r =
      match dictGet r colName with
      | some v =>
        match numParts (_try_convert_type v),
              numParts (_try_convert_type (Value.str litStr)) with
        | some _, some _ => dictSet r name
            (pyArith (if pyContains expr '*' = true then '*' else '+')
              (_try_convert_type v) (_try_convert_type (Value.str litStr)))
        | _, _ => dictSet r name Value.null
      | none => dictSet r name Value.null := by
  rw [addModifyRow, if_neg (by rw [hcc]; intro hh; cases hh),
    if_pos hac]
  rw [hparts]

/-- C7 (amended): in the arithmetic branch the stored field value is
first re-coerced by the same rule as the literal.  If the field is
missing, or either the coerced field value or the coerced literal is
non-numeric, the new field is Null.  When both are numeric the result
is the product (for `*`) or sum (for `+`), with Integer op Integer
staying Integer and any Float operand promoting the result to Float. -/
theorem c7_arithmetic (r : Record) (name expr colName litStr : String)
    (hcc : concatCond expr = false) (hac : arithCond expr = true)
    (hparts : (pySplit1 (if pyContains expr '*' = true then '*' else '+')
        expr).map pyStrip = [colName, litStr]) :
    (dictGet r colName = none →
      transform_add_modify_column [r] name expr = [dictSet r name Value.null]) ∧
    (∀ v, dictGet r colName = some v →
      (numParts (_try_convert_type v) = none ∨
       numParts (_try_convert_type (Value.str litStr)) = none) →
      transform_add_modify_column [r] name expr = [dictSet r name Value.null]) ∧
    (∀ v n m, dictGet r colName = some v →
      _try_convert_type v = Value.int n →
      _try_convert_type (Value.str litStr) = Value.int m →
      transform_add_modify_column [r] name expr
        = [dictSet r name (Value.int
            (if pyContains expr '*' = true then n * m else n + m))]) ∧
    (∀ v, dictGet r colName = some v →
      (numParts (_try_convert_type v)).isSome = true →
      (numParts (_try_convert_type (Value.str litStr))).isSome = true →
      (¬ ∃ n m : Int, _try_convert_type v = Value.int n ∧
        _try_convert_type (Value.str litStr) = Value.int m) →
      transform_add_modify_column [r] name expr
        = [dictSet r name (Value.float
            (if pyContains expr '*' = true
             then toQ (_try_convert_type v) *
               toQ (_try_convert_type (Value.str litStr))
             else toQ (_try_convert_type v) +
               toQ (_try_convert_type (Value.str litStr))))]) := by
  have hred : transform_add_modify_column [r] name expr
      = [addModifyRow name expr r] := rfl
  have hrow := addModifyRow_arith r name expr colName litStr hcc hac hparts
  refine ⟨?_, ?_, ?_, ?_⟩
  · intro hnone
    rw [hred, hrow, hnone]
  · intro v hv hnp
    rw [hred, hrow]
    simp only [hv]
    rcases hnp with hnp | hnp
    · rw [hnp]
    · rw [hnp]
      cases numParts (_try_convert_type v) <;> rfl
  · intro v n m hv hcn hlm
    rw [hred, hrow]
    simp only [hv, hcn, hlm, numParts]
    by_cases hstar : pyContains expr '*' = true
    · simp [hstar, pyArith]
    · simp [hstar, pyArith]
  · intro v hv hs1 hs2 hni
    rw [hred, hrow]
    simp only [hv]
    obtain ⟨p1, hp1⟩ := Option.isSome_iff_exists.mp hs1
    obtain ⟨p2, hp2⟩ := Option.isSome_iff_exists.mp hs2
    rw [hp1, hp2]
    rw [pyArith_float hs1 hs2 hni]
    by_cases hstar : pyContains expr '*' = true <;> simp [hstar]

/-- Witness for the amended C7: `Salary*2` on an Integer field is the
Integer product; the same expression on a record lacking the field
gives Null. -/
theorem c7_arithmetic_witness :
    concatCond "Salary*2" = false ∧
    arithCond "Salary*2" = true ∧
    (pySplit1 (if pyContains "Salary*2" '*' = true then '*' else '+')
      "Salary*2").map pyStrip = ["Salary", "2"] ∧
    transform_add_modify_column ([("Salary", Value.int 1000)] :: ([] : Dataset))
        "Bonus" "Salary*2"
      = [dictSet [("Salary", Value.int 1000)] "Bonus"
          (Value.int (if pyContains "Salary*2" '*' = true
            then (1000 : Int) * 2 else (1000 : Int) + 2))] ∧
    transform_add_modify_column ([("Other", Value.int 7)] :: ([] : Dataset))
        "Bonus" "Salary*2"
      = [dictSet [("Other", Value.int 7)] "Bonus" Value.null] :=
  ⟨by decide, by decide, by decide,
    (c7_arithmetic [("Salary", Value.int 1000)] "Bonus" "Salary*2" "Salary" "2"
      (by decide) (by decide) (by decide)).2.2.1 (Value.int 1000) 1000 2
      (by decide) (by decide) (by decide),
    (c7_arithmetic [("Other", Value.int 7)] "Bonus" "Salary*2" "Salary" "2"
      (by decide) (by decide) (by decide)).1 (by decide)⟩

-- ---------------------------------------------------------------------
-- Claim C9 — the coercion rule.
-- ---------------------------------------------------------------------

/-- C9: coercion is a total function that, on a raw string, first
attempts the integer parse, on failure the float parse, and on failure
keeps the string — so it always yields exactly one of the four value
kinds — while every already-typed (non-string) value passes through
unchanged. -/
theorem c9_coercion (n : Int) (q : Rat) (s : String) :
    _try_convert_type (Value.int n) = Value.int n ∧
    _try_convert_type (Value.float q) = Value.float q ∧
    _try_convert_type Value.null = Value.null ∧
    (match pyParseInt s with
     | some m => _try_convert_type (Value.str s) = Value.int m
     | none =>
       match pyParseFloat s with
       | some qq => _try_convert_type (Value.str s) = Value.float qq
       | none => _try_convert_type (Value.str s) = Value.str s) := by
  refine ⟨rfl, rfl, rfl, ?_⟩
  cases hi : pyParseInt s
  · cases hf : pyParseFloat s
    · simp [_try_convert_type, hi, hf]
    · simp [_try_convert_type, hi, hf]
  · simp [_try_convert_type, hi]

-- ---------------------------------------------------------------------
-- Claim C6 — malformed pipeline stages are skipped.
-- ---------------------------------------------------------------------

/-- C6: a stage whose transform specification is malformed (no colon,
wrong filter arity, a rename or sort pair without a colon, an addcol
without `=`, or an unknown action) leaves the dataset exactly as it
was, and the embedded dispatcher is total — nothing is raised. -/
theorem runAction_malformed (d : Dataset) (action params_str : String)
    (h : malformedAction action params_str = true) :
    runAction d action params_str = d := by
  rw [malformedAction] at h
  rw [runAction]
  by_cases h1 : action = "select"
  · rw [if_pos h1] at h
    cases h
  · rw [if_neg h1] at h ⊢
    by_cases h2 : action = "filter"
    · rw [if_pos h2] at h ⊢
      rw [decide_eq_true_eq] at h
      have hlen : ((pySplitMax ',' 2 params_str).map pyStrip).length ≠ 3 := by
        rw [List.length_map]
        exact h
      cases hm : (pySplitMax ',' 2 params_str).map pyStrip with
      | nil => rfl
      | cons x xs =>
        cases xs with
        | nil => rfl
        | cons y ys =>
          cases ys with
          | nil => rfl
          | cons z zs =>
            cases zs with
            | nil =>
              rw [hm] at hlen
              simp at hlen
            | cons w ws => rfl
    · rw [if_neg h2] at h ⊢
      by_cases h3 : action = "rename"
      · rw [if_pos h3] at h ⊢
        rw [Bool.not_eq_true'] at h
        rw [parseRenameMap, if_neg (by rw [h]; intro hh; cases hh)]
      · rw [if_neg h3] at h ⊢
        by_cases h4 : action = "sort"
        · rw [if_pos h4] at h ⊢
          rw [Bool.not_eq_true'] at h
          rw [parseSortKeys, if_neg (by rw [h]; intro hh; cases hh)]
        · rw [if_neg h4] at h ⊢
          by_cases h5 : action = "addcol"
          · rw [if_pos h5] at h ⊢
            rw [Bool.not_eq_true'] at h
            rw [if_neg (by rw [h]; intro hh; cases hh)]
          · rw [if_neg h5]

theorem c6_malformed_stage_skipped (d : Dataset) (s : String)
    (h : malformedSpec s = true) : runStage d s = d := by
  rw [malformedSpec] at h
  rw [runStage]
  by_cases hc : pyContains s ':' = true
  · rw [if_pos hc] at h ⊢
    cases hsp : pySplit1 ':' s with
    | nil => rfl
    | cons a rest =>
      cases rest with
      | nil => rfl
      | cons b rest2 =>
        cases rest2 with
        | cons e rest3 => rfl
        | nil =>
          rw [hsp] at h
          have h' : malformedAction (pyLowerStr (pyStrip a)) b = true := h
          show runAction d (pyLowerStr (pyStrip a)) b = d
          exact runAction_malformed d _ b h'
  · rw [if_neg hc]

/-- Witness for C6 on a concrete malformed addcol stage. -/
theorem c6_malformed_stage_skipped_witness :
    malformedSpec "addcol:noequals" = true ∧
    runStage ([[("A", Value.int 1)]] : Dataset) "addcol:noequals"
      = ([[("A", Value.int 1)]] : Dataset) :=
  ⟨by decide, c6_malformed_stage_skipped _ "addcol:noequals" (by decide)⟩
